import Mathlib

/-!
# Verification of the LogicFlow `BaseNodeModel` node data model

Shallow embedding of `src/packages/core/src/model/node/BaseNodeModel.ts`.
JavaScript numbers are modelled as `ℚ` for the stateful operations (all
arithmetic there is +, -, /2) and as `ℝ` for the anchor-rotation geometry.
The class's data fields become the structure `NodeState`; fields holding
functions (the rule lists `moveRules`, `sourceRules`, `targetRules` and the
flags guarding them) are passed alongside the state (`ConnRulesState`,
explicit rule-list arguments) because Lean structures cannot store functions
over themselves.  Overridable hooks (`getConnectedSourceRules`,
`getConnectedTargetRules`) are function parameters whose default value is the
base-class body.  `createUuid()` results are passed in as explicit `String`
arguments.  Event emission (`eventCenter.emit`) is modelled by returning the
emitted payload.
-/

namespace LogicFlow

/-- `LabelConfig` from `LogicFlow.LabelConfig`: `{multiple, max, verticle}`
as read by the label operations (`properties.labelConfig`). -/
structure LabelConfig where
  multiple : Bool
  max : Option Nat
  verticle : Bool
  deriving DecidableEq, Repr

/-- A text label record (`LogicFlow.LabelType`): id, owner id, value and
rendered content, position, flags. -/
structure LabelType (α : Type) where
  id : String
  relateId : String
  value : String
  content : String
  x : α
  y : α
  draggable : Bool
  editable : Bool
  isFocus : Bool
  deriving DecidableEq, Repr

/-- The node's `text` field: `LabelType | LabelType[]` in the source.
`single` is the plain-object representation, `list` the array one
(`isArray(this.text)` in the source corresponds to matching `list`). -/
inductive NodeText (α : Type) where
  | single : LabelType α → NodeText α
  | list : List (LabelType α) → NodeText α
  deriving DecidableEq, Repr

/-- A property value stored in the free-form `properties` record.  The
source type is `Record<string, unknown>`; we model the primitive values the
claims exercise plus the distinguished `labelConfig` sub-record. -/
inductive PropValue where
  | str : String → PropValue
  | num : ℚ → PropValue
  | bool : Bool → PropValue
  | lconf : LabelConfig → PropValue
  deriving DecidableEq, Repr

/-- An ordered string-keyed record, modelling a JS object literal
(`properties`).  Keys are assumed distinct, as in a JS object. -/
abbrev Props := List (String × PropValue)

/-- The transform descriptor produced by the `rotate` setter:
`new TranslateMatrix(-x,-y).rotate(value).translate(x,y).toString()`.
The resulting string is determined by the translation centre `(tx, ty)`
and the `angle`, so we record exactly those parameters. -/
structure TransformDesc (α : Type) where
  tx : α
  ty : α
  angle : α
  deriving DecidableEq, Repr

/-- One entry of `anchorsOffset` (`BaseNodeModel.AnchorsOffsetItem`):
either a legacy 2-tuple offset (`PointTuple`) or a record with an optional
id (the source checks `el.length` to distinguish the tuple form). -/
inductive AnchorsOffsetItem (α : Type) where
  | tuple : α → α → AnchorsOffsetItem α
  | record : Option String → α → α → AnchorsOffsetItem α
  deriving DecidableEq, Repr

/-- A resolved anchor (`Model.AnchorConfig`): id plus absolute position. -/
structure AnchorConfig (α : Type) where
  id : String
  x : α
  y : α
  deriving DecidableEq, Repr

/-- The data fields of `BaseNodeModel` that the verified operations read or
write.  `transform` starts out unassigned (`@observable transform!: string`)
and is only ever written by the `rotate` setter, hence the `Option`. -/
structure NodeState (α : Type) where
  id : String
  type : String
  x : α
  y : α
  width : α
  height : α
  rotate : α
  transform : Option (TransformDesc α)
  text : NodeText α
  props : Props
  anchorsOffset : List (AnchorsOffsetItem α)
  zIndex : Int
  deriving DecidableEq, Repr

/-- Key lookup in a JS object: `props[key]` / `has(props, key)`. -/
def lookupProp : Props → String → Option PropValue
  | [], _ => none
  | (k, v) :: rest, key => if k = key then some v else lookupProp rest key

/-- `{...pre, [key]: v}`: replace the value at an existing key in place,
or append the new key at the end, as JS object spread does. -/
def setKey : Props → String → PropValue → Props
  | [], key, v => [(key, v)]
  | (k, w) :: rest, key, v =>
    if k = key then (key, v) :: rest else (k, w) :: setKey rest key v

/-- `{...pre, ...newProps}`: fold the new entries over the old record. -/
def mergeProps (pre newProps : Props) : Props :=
  newProps.foldl (fun acc kv => setKey acc kv.1 kv.2) pre

/-- `this.properties.labelConfig` as the label operations read it.  When
the key is absent or not a config record the optional chains
(`(labelConfig as LabelConfig)?.multiple`) read `undefined`, i.e. falsy,
which the default record reproduces. -/
def getLabelConfig {α : Type} (n : NodeState α) : LabelConfig :=
  match lookupProp n.props "labelConfig" with
  | some (PropValue.lconf c) => c
  | _ => ⟨false, none, false⟩

/-- The labels currently attached, in order, in either representation. -/
def textLabels {α : Type} : NodeText α → List (LabelType α)
  | NodeText.single t => [t]
  | NodeText.list l => l

/-- The shape invariant of §3 of the spec: the representation of `text`
matches `labelConfig.multiple` (array iff multiple). -/
def textShapeOk {α : Type} (n : NodeState α) : Bool :=
  match n.text with
  | NodeText.single _ => !(getLabelConfig n).multiple
  | NodeText.list _ => (getLabelConfig n).multiple

/-! ## Move rules (`Model.NodeMoveRule`) -/

/-- What a move rule may return: `boolean | Model.IsAllowMove`
(`{x: boolean, y: boolean}`). -/
inductive MoveRuleResult where
  | rbool : Bool → MoveRuleResult
  | rpair : Bool → Bool → MoveRuleResult
  deriving DecidableEq, Repr

/-- A move rule: called as `rule(this, deltaX, deltaY)`. -/
abbrev MoveRule (α : Type) := NodeState α → α → α → MoveRuleResult

/-- What `isAllowMoveNode` can return: the early `return false`, or the
final `{x: isAllowMoveX, y: isAllowMoveY}` object.  (The source never
returns the boolean `true`.) -/
inductive IsAllowMoveResult where
  | retFalse : IsAllowMoveResult
  | retPair : Bool → Bool → IsAllowMoveResult
  deriving DecidableEq, Repr

/-- The loop body of `isAllowMoveNode` over the concatenated rule list,
carrying the accumulators `isAllowMoveX` / `isAllowMoveY` (both start
`true`).  `if (!r) return false` fires only for the boolean `false`
(objects are truthy in JS); an object with both axes `false` also
returns `false`; otherwise the per-axis results AND-accumulate. -/
def isAllowMoveNodeAux {α : Type} (n : NodeState α) (deltaX deltaY : α) :
    List (MoveRule α) → Bool → Bool → IsAllowMoveResult
  | [], ax, ay => IsAllowMoveResult.retPair ax ay
  | rule :: rest, ax, ay =>
    match rule n deltaX deltaY with
    | MoveRuleResult.rbool false => IsAllowMoveResult.retFalse
    | MoveRuleResult.rbool true => isAllowMoveNodeAux n deltaX deltaY rest ax ay
    | MoveRuleResult.rpair rx ry =>
      if !rx && !ry then IsAllowMoveResult.retFalse
      else isAllowMoveNodeAux n deltaX deltaY rest (ax && rx) (ay && ry)

/-- `isAllowMoveNode(deltaX, deltaY)`.  The rule chain is
`this.moveRules.concat(this.graphModel.nodeMoveRules)`; both lists are
explicit parameters here because Lean structures cannot store rule
functions over the node state. -/
def isAllowMoveNode {α : Type} (moveRules nodeMoveRules : List (MoveRule α))
    (n : NodeState α) (deltaX deltaY : α) : IsAllowMoveResult :=
  isAllowMoveNodeAux n deltaX deltaY (moveRules ++ nodeMoveRules) true true

/-- `isAllowMoveByXORY(deltaX, deltaY, isIgnoreRule)`: when the rules are
ignored both axes are allowed; a boolean result (always `false`) sets both
axes to it; an object result supplies the axes. -/
def isAllowMoveByXORY {α : Type} (moveRules nodeMoveRules : List (MoveRule α))
    (n : NodeState α) (deltaX deltaY : α) (isIgnoreRule : Bool) : Bool × Bool :=
  if isIgnoreRule then (true, true)
  else
    match isAllowMoveNode moveRules nodeMoveRules n deltaX deltaY with
    | IsAllowMoveResult.retFalse => (false, false)
    | IsAllowMoveResult.retPair ax ay => (ax, ay)

/-- `moveText(deltaX, deltaY)`: in single mode shift that record, in
multiple mode shift every record of the list.  (When the representation
of `text` does not match `labelConfig.multiple` — ruled out by the shape
invariant — the source's first branch would spread an array into an
object producing `NaN` coordinates; that unreachable case is modelled as
a no-op.) -/
def moveText {α : Type} [Add α] (n : NodeState α) (deltaX deltaY : α) : NodeState α :=
  match n.text with
  | NodeText.single t =>
    if !(getLabelConfig n).multiple then
      { n with text := NodeText.single { t with x := t.x + deltaX, y := t.y + deltaY } }
    else n
  | NodeText.list l =>
    if (getLabelConfig n).multiple then
      { n with text :=
          NodeText.list (l.map fun t => { t with x := t.x + deltaX, y := t.y + deltaY }) }
    else n

/-- `move(deltaX, deltaY, isIgnoreRule)`: per-axis application.  The x axis
is updated (and the labels shifted by `(deltaX, 0)`) only when allowed, the
y axis (labels shifted by `(0, deltaY)`) only when allowed; the return
value is `isAllowMoveX || isAllowMoveY`.  (`this.text &&` always holds:
`text` is an object or an array, both truthy.) -/
def move {α : Type} [Add α] [Zero α] (moveRules nodeMoveRules : List (MoveRule α))
    (n : NodeState α) (deltaX deltaY : α) (isIgnoreRule : Bool) :
    NodeState α × Bool :=
  let p := isAllowMoveByXORY moveRules nodeMoveRules n deltaX deltaY isIgnoreRule
  let n1 := if p.1 then moveText { n with x := n.x + deltaX } deltaX 0 else n
  let n2 := if p.2 then moveText { n1 with y := n1.y + deltaY } 0 deltaY else n1
  (n2, p.1 || p.2)

/-- `getMoveDistance(deltaX, deltaY, isIgnoreRule)`: like `move` but an
axis is also skipped when its delta is falsy (zero), and the applied
deltas are returned. -/
def getMoveDistance {α : Type} [Add α] [DecidableEq α] [Zero α]
    (moveRules nodeMoveRules : List (MoveRule α))
    (n : NodeState α) (deltaX deltaY : α) (isIgnoreRule : Bool) :
    NodeState α × α × α :=
  let p := isAllowMoveByXORY moveRules nodeMoveRules n deltaX deltaY isIgnoreRule
  let n1 := if p.1 && !(deltaX = 0 : Bool) then
      moveText { n with x := n.x + deltaX } deltaX 0 else n
  let moveX := if p.1 && !(deltaX = 0 : Bool) then deltaX else 0
  let n2 := if p.2 && !(deltaY = 0 : Bool) then
      moveText { n1 with y := n1.y + deltaY } 0 deltaY else n1
  let moveY := if p.2 && !(deltaY = 0 : Bool) then deltaY else 0
  (n2, moveX, moveY)

/-- `moveTo(x, y, isIgnoreRule)`: one combined delta; the guard
`!isIgnoreRule && !this.isAllowMoveNode(deltaX, deltaY)` rejects the move
only when `isAllowMoveNode` returned the boolean `false` — a returned
`{x, y}` object is truthy in JS whatever its fields — otherwise the labels
shift by the whole delta and the position becomes exactly `(x, y)`. -/
def moveTo {α : Type} [Add α] [Sub α] (moveRules nodeMoveRules : List (MoveRule α))
    (n : NodeState α) (x y : α) (isIgnoreRule : Bool) : NodeState α × Bool :=
  let deltaX := x - n.x
  let deltaY := y - n.y
  if !isIgnoreRule &&
      (isAllowMoveNode moveRules nodeMoveRules n deltaX deltaY
        = IsAllowMoveResult.retFalse : Bool) then
    (n, false)
  else
    let n1 := moveText n deltaX deltaY
    ({ n1 with x := x, y := y }, true)

/-- The `rotate` setter: stores the angle and recomputes the transform
descriptor `new TranslateMatrix(-x,-y).rotate(value).translate(x,y)` from
the node's current `x`, `y`. -/
def setRotate {α : Type} (n : NodeState α) (value : α) : NodeState α :=
  { n with rotate := value, transform := some ⟨n.x, n.y, value⟩ }

/-! ## Text label lifecycle -/

/-- `addText(labelConf)`: in multiple mode with a defined `max`, a no-op
once `this.text.length >= max` (when `text` is a plain object its
`length` is `undefined` and the comparison is false); otherwise in
multiple mode a fresh empty focused record is pushed at the supplied
position, and in single mode the existing record is merely re-created
with `isFocus: true`.  The fresh `createUuid()` is the `newId` argument;
`confX`/`confY` are `labelConf.x`/`labelConf.y`.  (An array `push` onto a
plain object, or an object spread of an array — both off the shape
invariant — would throw or produce garbage in JS and are modelled as
no-ops.) -/
def addText {α : Type} [Sub α] [OfNat α 10] (newId : String) (n : NodeState α)
    (confX confY : α) : NodeState α :=
  let lc := getLabelConfig n
  let lenGuard : Bool :=
    match lc.max, n.text with
    | some m, NodeText.list l => decide (l.length ≥ m)
    | _, _ => false
  if lc.multiple && lenGuard then n
  else
    let newText : LabelType α :=
      { id := newId, relateId := n.id, value := "", content := ""
        draggable := false, editable := true
        x := if lc.multiple then confX else n.x - 10
        y := if lc.multiple then confY else n.y - 10
        isFocus := true }
    if lc.multiple then
      match n.text with
      | NodeText.list l => { n with text := NodeText.list (l ++ [newText]) }
      | NodeText.single _ => n
    else
      match n.text with
      | NodeText.single t => { n with text := NodeText.single { t with isFocus := true } }
      | NodeText.list _ => n

/-- Lodash `isArray()` called with no argument, as on the source line
`if (textInfo.index && isArray())`: `isArray(undefined)` is `false`. -/
def lodashIsArrayOfNothing : Bool := false

/-- JS truthiness of the optional numeric `textInfo.index` (`undefined`
and `0` are falsy). -/
def truthyIndex : Option Nat → Bool
  | none => false
  | some i => !(i = 0 : Bool)

/-- `deleteText({index?, id?})`: on the array representation, the index
branch `if (textInfo.index && isArray())` (dead, see
`lodashIsArrayOfNothing`) would splice at the index; otherwise the record
matching `textInfo.id` is spliced out, an unmatched (or `undefined`) id
being a no-op.  On the object representation `assign` clears `value` and
`content` to empty strings. -/
def deleteText {α : Type} (n : NodeState α) (index : Option Nat)
    (idOpt : Option String) : NodeState α :=
  match n.text with
  | NodeText.list l =>
    if truthyIndex index && lodashIsArrayOfNothing then
      { n with text := NodeText.list (l.eraseIdx (index.getD 0)) }
    else
      match l.findIdx? (fun t => idOpt = some t.id) with
      | none => n
      | some j => { n with text := NodeText.list (l.eraseIdx j) }
  | NodeText.single t =>
    { n with text := NodeText.single { t with value := "", content := "" } }

/-! ## Property mutator and notifier -/

/-- The payload of the `NODE_PROPERTIES_CHANGE` event emitted by
`setProperty` / `setProperties`. -/
structure PropertiesChangeEvent where
  id : String
  keys : List String
  preProperties : Props
  properties : Props
  deriving DecidableEq, Repr

/-- `formatData` from the util package deep-clones JSON data.  On the
immutable modelled values the clone has the same value content, so the
function is the identity here; the reference-level consequence of the
cloning — a stored object is never reference-equal to the caller's
object — is carried by `jsStrictEqCloned`, the model of the strict
equality that `setProperties` applies to these clones. -/
def formatData (v : PropValue) : PropValue := v

/-- Whether the value is a JS primitive (string / number / boolean), for
which strict equality is value equality.  The label-configuration record
is an object. -/
def isPrimitive : PropValue → Bool
  | PropValue.lconf _ => false
  | _ => true

/-- The comparison `preProperties[key] !== val` of `setProperties`,
un-negated: JS strict equality whose left operand is always a fresh deep
clone (`preProperties` is `toJS(this.properties)` and the stored values
are `formatData` clones).  Primitives compare by value; an object value
on the left (the label-configuration record) is a clone and is never
reference-equal to anything the caller supplies. -/
def jsStrictEqCloned : PropValue → PropValue → Bool
  | PropValue.str a, PropValue.str b => decide (a = b)
  | PropValue.num a, PropValue.num b => decide (a = b)
  | PropValue.bool a, PropValue.bool b => decide (a = b)
  | PropValue.lconf _, _ => false
  | _, _ => false

/-- `setProperty(key, val)`: builds `{...preProperties, [key]: formatData(val)}`
as a brand-new record, then emits the change event with `keys: [key]` —
unconditionally, whether or not the value changed.  (`setAttributes()` is
the base class's overridable no-op.) -/
def setProperty {α : Type} (n : NodeState α) (key : String) (val : PropValue) :
    NodeState α × PropertiesChangeEvent :=
  let preProperties := n.props
  let nextProperties := setKey preProperties key (formatData val)
  ({ n with props := nextProperties },
   { id := n.id, keys := [key], preProperties, properties := nextProperties })

/-- The `updateKeys` computation of `setProperties`: a key of the argument
is reported iff it is absent from the previous record or its cloned
stored value is not strictly equal to the supplied one
(`(has(pre,key) && pre[key] !== val) || !has(pre,key)`). -/
def updateKeys (preProperties : Props) (properties : Props) : List String :=
  (properties.filter fun kv =>
    match lookupProp preProperties kv.1 with
    | some w => !jsStrictEqCloned w kv.2
    | none => true).map Prod.fst

/-- `setProperties(properties)`: merges into a brand-new record and emits
the change event listing exactly the changed-or-new top-level keys. -/
def setProperties {α : Type} (n : NodeState α) (properties : Props) :
    NodeState α × PropertiesChangeEvent :=
  let preProperties := n.props
  let nextProperties := mergeProps preProperties (properties.map fun kv => (kv.1, formatData kv.2))
  ({ n with props := nextProperties },
   { id := n.id, keys := updateKeys preProperties properties, preProperties,
     properties := nextProperties })

/-- `resize(resizeInfo)` (state part): `move(deltaX/2, deltaY/2)` first,
then set width/height and `setProperties({width, height})`.  The returned
snapshot is `getData()`; here we return the final state and the emitted
event. -/
def resize (moveRules nodeMoveRules : List (MoveRule ℚ)) (n : NodeState ℚ)
    (width height deltaX deltaY : ℚ) : NodeState ℚ × PropertiesChangeEvent :=
  let n1 := (move moveRules nodeMoveRules n (deltaX / 2) (deltaY / 2) false).1
  let n2 := { n1 with width := width, height := height }
  setProperties n2 [("width", PropValue.num width), ("height", PropValue.num height)]

/-! ## Data snapshot (`getData`) -/

/-- The `{x, y, value, content}` projection of a label in the snapshot. -/
structure TextData (α : Type) where
  x : α
  y : α
  value : String
  content : String
  deriving DecidableEq, Repr

/-- The snapshot's `text` field: single object or list, mirroring the
node's representation. -/
inductive NodeDataText (α : Type) where
  | single : TextData α → NodeDataText α
  | list : List (TextData α) → NodeDataText α
  deriving DecidableEq, Repr

/-- `LogicFlow.NodeData`, the snapshot returned by `getData`; optional
fields are `Option` (absent key = `none`). -/
structure NodeData (α : Type) where
  id : String
  type : String
  x : α
  y : α
  properties : Props
  rotate : Option α
  zIndex : Option Int
  text : Option (NodeDataText α)
  deriving DecidableEq, Repr

/-- `getData()`: `rotate` is included only when truthy (non-zero),
`zIndex` only under `OverlapMode.INCREASE` (the `overlapIncrease`
argument); an array `text` is always projected entry-wise, an object
`text` is included only when its `value` is truthy (non-empty). -/
def getData {α : Type} [Zero α] [DecidableEq α] (overlapIncrease : Bool)
    (n : NodeState α) : NodeData α :=
  { id := n.id, type := n.type, x := n.x, y := n.y, properties := n.props
    rotate := if n.rotate = 0 then none else some n.rotate
    zIndex := if overlapIncrease then some n.zIndex else none
    text :=
      match n.text with
      | NodeText.list l =>
        some (NodeDataText.list (l.map fun t => ⟨t.x, t.y, t.value, t.content⟩))
      | NodeText.single t =>
        if t.value = "" then none
        else some (NodeDataText.single ⟨t.x, t.y, t.value, t.content⟩) }

/-! ## Connection rule engine -/

/-- `Model.ConnectRuleResult`: `{isAllPass, msg}` (the spec calls these
`allPassed` / `message`). -/
structure ConnectRuleResult where
  isAllPass : Bool
  msg : String
  deriving DecidableEq, Repr

/-- `Model.ConnectRule`: a failure message plus a validation predicate.
The predicate is invoked as `rule.validate.call(this, source, target,
sourceAnchor, targetAnchor, edgeId)`, so its first argument here is the
receiver (the owning node) followed by the five call arguments. -/
structure ConnectRule (α : Type) where
  message : String
  validate : NodeState α → NodeState α → NodeState α →
    Option (AnchorConfig α) → Option (AnchorConfig α) → Option String → Bool

/-- The fields of `BaseNodeModel` that hold the connection-rule chains
and their once-only flags; kept beside `NodeState` because the rules are
functions over the node state. -/
structure ConnRulesState (α : Type) where
  sourceRules : List (ConnectRule α)
  targetRules : List (ConnectRule α)
  hasSetSourceRules : Bool
  hasSetTargetRules : Bool

/-- The rule loop of `isAllowConnectedAsSource` / `isAllowConnectedAsTarget`,
instrumented with the number of `validate` invocations it performs: rules
run in order; the first `validate` returning false breaks out with
`{isAllPass: false, msg: rule.message}`; otherwise `{isAllPass: true, msg: ""}`. -/
def evalConnectRulesTrace {α : Type} (recv source target : NodeState α)
    (sourceAnchor targetAnchor : Option (AnchorConfig α)) (edgeId : Option String) :
    List (ConnectRule α) → ConnectRuleResult × Nat
  | [] => (⟨true, ""⟩, 0)
  | rule :: rest =>
    if rule.validate recv source target sourceAnchor targetAnchor edgeId then
      let r := evalConnectRulesTrace recv source target sourceAnchor targetAnchor edgeId rest
      (r.1, r.2 + 1)
    else (⟨false, rule.message⟩, 1)

/-- The result of the rule loop (first component of the trace). -/
def evalConnectRules {α : Type} (recv source target : NodeState α)
    (sourceAnchor targetAnchor : Option (AnchorConfig α)) (edgeId : Option String)
    (rules : List (ConnectRule α)) : ConnectRuleResult :=
  (evalConnectRulesTrace recv source target sourceAnchor targetAnchor edgeId rules).1

/-- The base-class body of the overridable hook
`getConnectedSourceRules()`: `return this.sourceRules`. -/
def getConnectedSourceRulesDefault {α : Type} :
    ConnRulesState α → NodeState α → List (ConnectRule α) :=
  fun rs _ => rs.sourceRules

/-- The base-class body of the overridable hook
`getConnectedTargetRules()`: `return this.targetRules`. -/
def getConnectedTargetRulesDefault {α : Type} :
    ConnRulesState α → NodeState α → List (ConnectRule α) :=
  fun rs _ => rs.targetRules

/-- `isAllowConnectedAsSource(target, sourceAnchor, targetAnchor, edgeId)`:
when `hasSetSourceRules` is still false the chain comes from the
(overridable) hook, otherwise from the current `sourceRules` field; the
flag is then set.  Each rule is invoked with the owning node as receiver
and with that node as the `source` argument. -/
def isAllowConnectedAsSource {α : Type}
    (getConnectedSourceRules : ConnRulesState α → NodeState α → List (ConnectRule α))
    (rs : ConnRulesState α) (this target : NodeState α)
    (sourceAnchor targetAnchor : Option (AnchorConfig α)) (edgeId : Option String) :
    ConnectRuleResult × ConnRulesState α :=
  let rules := if !rs.hasSetSourceRules then getConnectedSourceRules rs this
    else rs.sourceRules
  (evalConnectRules this this target sourceAnchor targetAnchor edgeId rules,
   { rs with hasSetSourceRules := true })

/-- `isAllowConnectedAsTarget(source, sourceAnchor, targetAnchor, edgeId)`:
the mirror chain; each rule is invoked with the owning node as receiver
and with that node as the `target` argument. -/
def isAllowConnectedAsTarget {α : Type}
    (getConnectedTargetRules : ConnRulesState α → NodeState α → List (ConnectRule α))
    (rs : ConnRulesState α) (this source : NodeState α)
    (sourceAnchor targetAnchor : Option (AnchorConfig α)) (edgeId : Option String) :
    ConnectRuleResult × ConnRulesState α :=
  let rules := if !rs.hasSetTargetRules then getConnectedTargetRules rs this
    else rs.targetRules
  (evalConnectRules this source this sourceAnchor targetAnchor edgeId rules,
   { rs with hasSetTargetRules := true })

/-! ## Anchor resolver -/

/-- The base-class `getDefaultAnchor()`: an empty list (shape variants
override it). -/
def getDefaultAnchor {α : Type} (_n : NodeState α) : List (AnchorConfig α) := []

/-- `getAnchorsByOffset()`: with a non-empty explicit offset list, each
entry becomes center + offset; a legacy tuple always gets the id
`{id}_{idx}`, a record keeps a truthy supplied id (`el.id || ...`, so an
empty-string id also falls back) and otherwise gets `{id}_{idx}`.  With
no offsets the shape-specific default generator is used. -/
def getAnchorsByOffset {α : Type} [Add α] (n : NodeState α) : List (AnchorConfig α) :=
  if n.anchorsOffset.length > 0 then
    n.anchorsOffset.enum.map fun p =>
      match p.2 with
      | AnchorsOffsetItem.tuple a b =>
        ⟨n.id ++ "_" ++ toString p.1, n.x + a, n.y + b⟩
      | AnchorsOffsetItem.record idf ox oy =>
        ⟨(match idf with
          | some s => if s = "" then n.id ++ "_" ++ toString p.1 else s
          | none => n.id ++ "_" ++ toString p.1),
         n.x + ox, n.y + oy⟩
  else getDefaultAnchor n

/-- Modelled from the spec: the `Matrix`/`TranslateMatrix` affine helpers
of the util package (the Transform Engine) are not under `src/`.  Per
§4.1 the composition is translate the centre to the origin, rotate by the
signed angle, translate back; the angle unit (degrees) and the sign
convention are fixed by the §8 scenario (a 90-degree rotation about
(100,100) maps (150,100) to (100,150)). -/
noncomputable def rotatePointAboutCenter (cx cy angleDeg px py : ℝ) : ℝ × ℝ :=
  let t := angleDeg * Real.pi / 180
  let u := px - cx
  let v := py - cy
  (u * Real.cos t - v * Real.sin t + cx, u * Real.sin t + v * Real.cos t + cy)

/-- The `anchors` getter: every resolved anchor's position is replaced by
`new Matrix([x, y, 1]).translate(-cx,-cy).rotate(rotate).translate(cx,cy)`,
i.e. its rotation about the node centre by the current angle; the other
fields of the anchor are kept. -/
noncomputable def anchors (n : NodeState ℝ) : List (AnchorConfig ℝ) :=
  (getAnchorsByOffset n).map fun a =>
    let p := rotatePointAboutCenter n.x n.y n.rotate a.x a.y
    { a with x := p.1, y := p.2 }

/-! ## Derived notions used to state the claims -/

/-- Shift one label by a delta (what `moveText` does to each record). -/
def shiftLabel {α : Type} [Add α] (dx dy : α) (t : LabelType α) : LabelType α :=
  { t with x := t.x + dx, y := t.y + dy }

/-- Shift a whole text field by a delta, keeping its representation. -/
def shiftText {α : Type} [Add α] (dx dy : α) : NodeText α → NodeText α
  | NodeText.single t => NodeText.single (shiftLabel dx dy t)
  | NodeText.list l => NodeText.list (l.map (shiftLabel dx dy))

/-- A move-rule result that vetoes the whole move in `isAllowMoveNode`:
the boolean `false`, or a per-axis pair with both axes false. -/
def vetoes : MoveRuleResult → Bool
  | MoveRuleResult.rbool b => !b
  | MoveRuleResult.rpair rx ry => !rx && !ry

/-- The x-axis contribution of one rule result to the AND-accumulation
(a passing boolean contributes nothing). -/
def allowX : MoveRuleResult → Bool
  | MoveRuleResult.rbool _ => true
  | MoveRuleResult.rpair rx _ => rx

/-- The y-axis contribution of one rule result to the AND-accumulation. -/
def allowY : MoveRuleResult → Bool
  | MoveRuleResult.rbool _ => true
  | MoveRuleResult.rpair _ ry => ry

/-! ## Helper lemmas -/

theorem shiftText_shiftText {α : Type} [AddCommMonoid α] (a b c d : α) (t : NodeText α) :
    shiftText a b (shiftText c d t) = shiftText (c + a) (d + b) t := by
  cases t <;> simp [shiftText, shiftLabel, List.map_map, Function.comp, add_assoc]

theorem shiftText_zero {α : Type} [AddCommMonoid α] (t : NodeText α) :
    shiftText 0 0 t = t := by
  have h : ∀ u : LabelType α, shiftLabel 0 0 u = u := fun u => by simp [shiftLabel]
  cases t with
  | single u => simp [shiftText, h]
  | list l =>
    simp only [shiftText, NodeText.list.injEq]
    exact (List.map_congr_left fun u _ => h u).trans (List.map_id l)

theorem textLabels_shiftText {α : Type} [Add α] (dx dy : α) (t : NodeText α) :
    textLabels (shiftText dx dy t) = (textLabels t).map (shiftLabel dx dy) := by
  cases t <;> rfl

/-- `moveText` on a shape-consistent node shifts the whole text field and
changes nothing else. -/
theorem moveText_spec {α : Type} [Add α] (n : NodeState α) (dx dy : α)
    (h : textShapeOk n = true) :
    moveText n dx dy = { n with text := shiftText dx dy n.text } := by
  cases n with
  | mk id type x y w hh rot tf text props ao z =>
    cases text with
    | single t =>
      simp only [textShapeOk, Bool.not_eq_true'] at h
      simp [moveText, shiftText, shiftLabel, h]
    | list l =>
      simp only [textShapeOk] at h
      simp [moveText, shiftText, shiftLabel, h]

theorem moveText_transform {α : Type} [Add α] (n : NodeState α) (dx dy : α) :
    (moveText n dx dy).transform = n.transform := by
  cases n with
  | mk id type x y w hh rot tf text props ao z =>
    cases text with
    | single t => by_cases h : (getLabelConfig ⟨id, type, x, y, w, hh, rot, tf,
        NodeText.single t, props, ao, z⟩).multiple <;> simp [moveText, h]
    | list l => by_cases h : (getLabelConfig ⟨id, type, x, y, w, hh, rot, tf,
        NodeText.list l, props, ao, z⟩).multiple <;> simp [moveText, h]

/-- `textShapeOk` only looks at the text representation and the label
configuration, so shifting preserves it. -/
theorem textShapeOk_shiftText {α : Type} [Add α] (n : NodeState α) (a b dx dy : α) :
    textShapeOk { n with x := a, y := b, text := shiftText dx dy n.text }
      = textShapeOk n := by
  cases n with
  | mk id type x y w hh rot tf text props ao z => cases text <;> rfl

/-- The accumulator characterization of the `isAllowMoveNode` loop. -/
theorem isAllowMoveNodeAux_spec {α : Type} (n : NodeState α) (dx dy : α)
    (rules : List (MoveRule α)) : ∀ ax ay : Bool,
    isAllowMoveNodeAux n dx dy rules ax ay =
      (if rules.any (fun r => vetoes (r n dx dy)) then IsAllowMoveResult.retFalse
       else IsAllowMoveResult.retPair (ax && rules.all fun r => allowX (r n dx dy))
         (ay && rules.all fun r => allowY (r n dx dy))) := by
  induction rules with
  | nil => intro ax ay; simp [isAllowMoveNodeAux]
  | cons rule rest ih =>
    intro ax ay
    rcases hr : rule n dx dy with b | ⟨rx, ry⟩
    · cases b with
      | false => simp [isAllowMoveNodeAux, hr, vetoes]
      | true => simp [isAllowMoveNodeAux, hr, vetoes, allowX, allowY, ih]
    · cases rx with
      | false =>
        cases ry with
        | false => simp [isAllowMoveNodeAux, hr, vetoes]
        | true => simp [isAllowMoveNodeAux, hr, vetoes, allowX, allowY, ih, Bool.and_assoc]
      | true =>
        simp [isAllowMoveNodeAux, hr, vetoes, allowX, allowY, ih, Bool.and_assoc]

theorem isAllowMoveNode_spec {α : Type} (moveRules nodeMoveRules : List (MoveRule α))
    (n : NodeState α) (dx dy : α) :
    isAllowMoveNode moveRules nodeMoveRules n dx dy =
      (if (moveRules ++ nodeMoveRules).any (fun r => vetoes (r n dx dy)) then
        IsAllowMoveResult.retFalse
       else IsAllowMoveResult.retPair
         ((moveRules ++ nodeMoveRules).all fun r => allowX (r n dx dy))
         ((moveRules ++ nodeMoveRules).all fun r => allowY (r n dx dy))) := by
  simpa using isAllowMoveNodeAux_spec n dx dy (moveRules ++ nodeMoveRules) true true

/-! ## Concrete sample data for witnesses and counterexamples

The stateful witnesses instantiate the coordinate type at `ℤ` (the claims
are proved for an arbitrary additive group of coordinates) so that the
kernel can evaluate them. -/

/-- A label attached to the sample node, sitting at (90, 95). -/
def sampleLabel : LabelType ℤ :=
  ⟨"t1", "n1", "hi", "hi", 90, 95, false, true, false⟩

/-- A single-text node centred at (100, 100). -/
def sampleNode : NodeState ℤ :=
  { id := "n1", type := "rect", x := 100, y := 100, width := 100, height := 80
    rotate := 0, transform := none
    text := NodeText.single sampleLabel
    props := [("labelConfig", PropValue.lconf ⟨false, some 1, false⟩)]
    anchorsOffset := [], zIndex := 1 }

/-- A move rule answering `{x: false, y: true}` for every proposed delta. -/
def ruleXFalseYTrue : MoveRule ℤ := fun _ _ _ => MoveRuleResult.rpair false true

/-! ## Claims -/

/-- **C1.** `move(dx, dy, ignoreRules)` computes the per-axis allow/deny
pair from the concatenated move rules, updates `x` only if the x axis is
allowed and `y` only if the y axis is allowed (the axes are decoupled),
unconditionally allows both axes when `ignoreRules` is set, shifts every
associated text label by the same delta on each axis that moved and only
on those axes, and returns true exactly when at least one axis moved. -/
theorem claim_C1 {α : Type} [AddCommMonoid α]
    (moveRules nodeMoveRules : List (MoveRule α)) (n : NodeState α)
    (dx dy : α) (isIgnoreRule : Bool) (h : textShapeOk n = true) :
    (move moveRules nodeMoveRules n dx dy isIgnoreRule).1.x =
      (if (isAllowMoveByXORY moveRules nodeMoveRules n dx dy isIgnoreRule).1
       then n.x + dx else n.x) ∧
    (move moveRules nodeMoveRules n dx dy isIgnoreRule).1.y =
      (if (isAllowMoveByXORY moveRules nodeMoveRules n dx dy isIgnoreRule).2
       then n.y + dy else n.y) ∧
    textLabels (move moveRules nodeMoveRules n dx dy isIgnoreRule).1.text =
      (textLabels n.text).map (shiftLabel
        (if (isAllowMoveByXORY moveRules nodeMoveRules n dx dy isIgnoreRule).1 then dx else 0)
        (if (isAllowMoveByXORY moveRules nodeMoveRules n dx dy isIgnoreRule).2 then dy else 0)) ∧
    (move moveRules nodeMoveRules n dx dy isIgnoreRule).2 =
      ((isAllowMoveByXORY moveRules nodeMoveRules n dx dy isIgnoreRule).1 ||
        (isAllowMoveByXORY moveRules nodeMoveRules n dx dy isIgnoreRule).2) ∧
    (isIgnoreRule = true →
      isAllowMoveByXORY moveRules nodeMoveRules n dx dy isIgnoreRule = (true, true)) := by
  rcases hp : isAllowMoveByXORY moveRules nodeMoveRules n dx dy isIgnoreRule with ⟨ax, ay⟩
  have hig : isIgnoreRule = true → ((ax, ay) : Bool × Bool) = (true, true) := by
    intro hi
    rw [← hp, isAllowMoveByXORY, hi]
    rfl
  have e1 : moveText { n with x := n.x + dx } dx 0
      = { n with x := n.x + dx, text := shiftText dx 0 n.text } :=
    moveText_spec _ dx 0 h
  have e2 : moveText { n with y := n.y + dy } 0 dy
      = { n with y := n.y + dy, text := shiftText 0 dy n.text } :=
    moveText_spec _ 0 dy h
  have e3 : moveText
      { n with
        x := n.x + dx
        y := n.y + dy
        text := shiftText dx 0 n.text } 0 dy
      = { n with
          x := n.x + dx
          y := n.y + dy
          text := shiftText 0 dy (shiftText dx 0 n.text) } :=
    moveText_spec _ 0 dy (by rw [textShapeOk_shiftText]; exact h)
  cases ax <;> cases ay
  · refine ⟨by simp [move, hp], by simp [move, hp], ?_, by simp [move, hp], hig⟩
    simp only [move, hp, if_neg Bool.false_ne_true]
    calc textLabels n.text = textLabels (shiftText 0 0 n.text) := by rw [shiftText_zero]
      _ = (textLabels n.text).map (shiftLabel 0 0) := textLabels_shiftText 0 0 n.text
  · refine ⟨?_, ?_, ?_, by simp [move, hp], hig⟩ <;>
      simp [move, hp, e2, textLabels_shiftText]
  · refine ⟨?_, ?_, ?_, by simp [move, hp], hig⟩ <;>
      simp [move, hp, e1, textLabels_shiftText]
  · refine ⟨?_, ?_, ?_, by simp [move, hp], hig⟩ <;>
      simp [move, hp, e1, e3, shiftText_shiftText, textLabels_shiftText]

/-- Witness for C1, realizing the spec scenario: with the single active
rule answering `{x: false, y: true}`, `move(10, 10)` leaves `x` at 100,
raises `y` to 110, shifts the label by `(0, 10)` only, and returns true. -/
theorem claim_C1_witness :
    textShapeOk sampleNode = true ∧
    ((move [ruleXFalseYTrue] [] sampleNode 10 10 false).1.x =
      (if (isAllowMoveByXORY [ruleXFalseYTrue] [] sampleNode 10 10 false).1
       then sampleNode.x + 10 else sampleNode.x) ∧
     (move [ruleXFalseYTrue] [] sampleNode 10 10 false).1.y =
      (if (isAllowMoveByXORY [ruleXFalseYTrue] [] sampleNode 10 10 false).2
       then sampleNode.y + 10 else sampleNode.y) ∧
     textLabels (move [ruleXFalseYTrue] [] sampleNode 10 10 false).1.text =
      (textLabels sampleNode.text).map (shiftLabel
        (if (isAllowMoveByXORY [ruleXFalseYTrue] [] sampleNode 10 10 false).1 then 10 else 0)
        (if (isAllowMoveByXORY [ruleXFalseYTrue] [] sampleNode 10 10 false).2 then 10 else 0)) ∧
     (move [ruleXFalseYTrue] [] sampleNode 10 10 false).2 =
      ((isAllowMoveByXORY [ruleXFalseYTrue] [] sampleNode 10 10 false).1 ||
        (isAllowMoveByXORY [ruleXFalseYTrue] [] sampleNode 10 10 false).2) ∧
     (false = true →
      isAllowMoveByXORY [ruleXFalseYTrue] [] sampleNode 10 10 false = (true, true))) ∧
    (move [ruleXFalseYTrue] [] sampleNode 10 10 false).1.x = 100 ∧
    (move [ruleXFalseYTrue] [] sampleNode 10 10 false).1.y = 110 ∧
    (move [ruleXFalseYTrue] [] sampleNode 10 10 false).1.text =
      NodeText.single { sampleLabel with y := 105 } ∧
    (move [ruleXFalseYTrue] [] sampleNode 10 10 false).2 = true :=
  ⟨by decide, claim_C1 [ruleXFalseYTrue] [] sampleNode 10 10 false (by decide),
   by decide, by decide, by decide, by decide⟩

/-- The rule loop stops at the first failing rule: if every rule before
index `i` passes and rule `i` fails, the result carries rule `i`'s
message and exactly `i + 1` predicates were invoked. -/
theorem evalConnectRulesTrace_firstFail {α : Type} (recv source target : NodeState α)
    (sa ta : Option (AnchorConfig α)) (e : Option String) :
    ∀ (rules : List (ConnectRule α)) (i : ℕ) (hi : i < rules.length),
    (∀ j (hj : j < i),
      (rules.get ⟨j, lt_trans hj hi⟩).validate recv source target sa ta e = true) →
    (rules.get ⟨i, hi⟩).validate recv source target sa ta e = false →
    evalConnectRulesTrace recv source target sa ta e rules
      = (⟨false, (rules.get ⟨i, hi⟩).message⟩, i + 1) := by
  intro rules
  induction rules with
  | nil => intro i hi; exact absurd hi (Nat.not_lt_zero i)
  | cons rule rest ih =>
    intro i hi hpass hfail
    cases i with
    | zero =>
      simp only [List.get] at hfail ⊢
      simp [evalConnectRulesTrace, hfail]
    | succ i =>
      have hhead : rule.validate recv source target sa ta e = true :=
        hpass 0 (Nat.succ_pos i)
      have hi' : i < rest.length := Nat.lt_of_succ_lt_succ hi
      have := ih i hi' (fun j hj => hpass (j + 1) (Nat.succ_lt_succ hj)) hfail
      simp [evalConnectRulesTrace, hhead, this]

/-- When every rule passes the loop returns `{isAllPass: true, msg: ""}`
and every predicate was invoked. -/
theorem evalConnectRulesTrace_allPass {α : Type} (recv source target : NodeState α)
    (sa ta : Option (AnchorConfig α)) (e : Option String) :
    ∀ rules : List (ConnectRule α),
    (∀ r ∈ rules, r.validate recv source target sa ta e = true) →
    evalConnectRulesTrace recv source target sa ta e rules
      = (⟨true, ""⟩, rules.length) := by
  intro rules
  induction rules with
  | nil => intro _; rfl
  | cons rule rest ih =>
    intro hpass
    have hhead : rule.validate recv source target sa ta e = true :=
      hpass rule (List.mem_cons_self rule rest)
    have := ih fun r hr => hpass r (List.mem_cons_of_mem rule hr)
    simp [evalConnectRulesTrace, hhead, this]

/-- **C3.** Connection-rule evaluation (here on the as-source chain, with
`hasSetSourceRules` still unset so the chain is the node's own rule list)
runs the predicates in order with the owning node as receiver and as the
source argument, short-circuits at the first predicate returning false —
no later predicate is invoked and the result is that rule's message with
`isAllPass: false` — and yields `{isAllPass: true, msg: ""}` when no
predicate fails. -/
theorem claim_C3 {α : Type} (rules : List (ConnectRule α)) (node target : NodeState α)
    (sa ta : Option (AnchorConfig α)) (edgeId : Option String) :
    (∀ i (hi : i < rules.length),
      (∀ j (hj : j < i),
        (rules.get ⟨j, lt_trans hj hi⟩).validate node node target sa ta edgeId = true) →
      (rules.get ⟨i, hi⟩).validate node node target sa ta edgeId = false →
      (isAllowConnectedAsSource getConnectedSourceRulesDefault
          ⟨rules, [], false, false⟩ node target sa ta edgeId).1
        = ⟨false, (rules.get ⟨i, hi⟩).message⟩
      ∧ (evalConnectRulesTrace node node target sa ta edgeId rules).2 = i + 1)
    ∧ ((∀ r ∈ rules, r.validate node node target sa ta edgeId = true) →
      (isAllowConnectedAsSource getConnectedSourceRulesDefault
          ⟨rules, [], false, false⟩ node target sa ta edgeId).1 = ⟨true, ""⟩
      ∧ (evalConnectRulesTrace node node target sa ta edgeId rules).2
          = rules.length) := by
  constructor
  · intro i hi hpass hfail
    have := evalConnectRulesTrace_firstFail node node target sa ta edgeId rules i hi
      hpass hfail
    constructor
    · simp [isAllowConnectedAsSource, getConnectedSourceRulesDefault,
        evalConnectRules, this]
    · simp [this]
  · intro hall
    have := evalConnectRulesTrace_allPass node node target sa ta edgeId rules hall
    constructor
    · simp [isAllowConnectedAsSource, getConnectedSourceRulesDefault,
        evalConnectRules, this]
    · simp [this]

/-- A connection rule whose predicate always fails, with message "no". -/
def ruleFailNo : ConnectRule ℤ := ⟨"no", fun _ _ _ _ _ _ => false⟩

/-- A connection rule whose predicate always passes. -/
def rulePassB : ConnectRule ℤ := ⟨"b", fun _ _ _ _ _ _ => true⟩

/-- Witness for C3, realizing the spec scenario: with rules
`[A(fails, msg="no"), B]`, `isAllowConnectedAsSource` answers
`{isAllPass: false, msg: "no"}` after exactly one predicate invocation,
so B's predicate is never called. -/
theorem claim_C3_witness :
    (isAllowConnectedAsSource getConnectedSourceRulesDefault
        ⟨[ruleFailNo, rulePassB], [], false, false⟩
        sampleNode sampleNode none none none).1
      = ⟨false, "no"⟩
    ∧ (evalConnectRulesTrace sampleNode sampleNode sampleNode none none none
        [ruleFailNo, rulePassB]).2 = 1 :=
  (claim_C3 [ruleFailNo, rulePassB] sampleNode sampleNode none none none).1
    0 (by decide) (fun j hj => absurd hj (Nat.not_lt_zero j)) rfl

/-- Counterexample to **C2**.  The first as-source evaluation on a node
with an empty rule list passes and sets `hasSetSourceRules`; replacing
the `sourceRules` field afterwards (the claim says this must have no
effect, the cached chain being reused) makes the next evaluation fail. -/
theorem claim_C2_counterexample :
    ((isAllowConnectedAsSource getConnectedSourceRulesDefault
        ⟨[], [], false, false⟩ sampleNode sampleNode none none none).1.isAllPass
      = true)
    ∧ ((isAllowConnectedAsSource getConnectedSourceRulesDefault
        ⟨[], [], false, false⟩ sampleNode sampleNode none none none).2.hasSetSourceRules
      = true)
    ∧ ((isAllowConnectedAsSource getConnectedSourceRulesDefault
        { (isAllowConnectedAsSource getConnectedSourceRulesDefault
            ⟨[], [], false, false⟩ sampleNode sampleNode none none none).2
          with sourceRules := [ruleFailNo] }
        sampleNode sampleNode none none none).1.isAllPass = false) :=
  ⟨rfl, rfl, rfl⟩

/-- **C2 (amended).** The first evaluation of a connection-rule chain
pulls the chain from the overridable hook and sets the once-only flag;
every later evaluation skips the hook — so changing what the hook would
return after the first check has no effect — but reads the node's
*current* rule-list field at call time, so mutating `sourceRules` /
`targetRules` after the first check does affect subsequent evaluations
(no evaluated chain is stored). -/
theorem claim_C2_amended {α : Type}
    (hook hook2 : ConnRulesState α → NodeState α → List (ConnectRule α))
    (rs : ConnRulesState α) (node other : NodeState α)
    (sa ta : Option (AnchorConfig α)) (e : Option String) :
    ((isAllowConnectedAsSource hook rs node other sa ta e).2.hasSetSourceRules = true)
    ∧ (rs.hasSetSourceRules = false →
        (isAllowConnectedAsSource hook rs node other sa ta e).1
          = evalConnectRules node node other sa ta e (hook rs node))
    ∧ (rs.hasSetSourceRules = true →
        (isAllowConnectedAsSource hook rs node other sa ta e).1
          = evalConnectRules node node other sa ta e rs.sourceRules
        ∧ (isAllowConnectedAsSource hook rs node other sa ta e).1
          = (isAllowConnectedAsSource hook2 rs node other sa ta e).1)
    ∧ ((isAllowConnectedAsTarget hook rs node other sa ta e).2.hasSetTargetRules = true)
    ∧ (rs.hasSetTargetRules = false →
        (isAllowConnectedAsTarget hook rs node other sa ta e).1
          = evalConnectRules node other node sa ta e (hook rs node))
    ∧ (rs.hasSetTargetRules = true →
        (isAllowConnectedAsTarget hook rs node other sa ta e).1
          = evalConnectRules node other node sa ta e rs.targetRules
        ∧ (isAllowConnectedAsTarget hook rs node other sa ta e).1
          = (isAllowConnectedAsTarget hook2 rs node other sa ta e).1) := by
  refine ⟨rfl, fun hf => ?_, fun ht => ⟨?_, ?_⟩, rfl, fun hf => ?_, fun ht => ⟨?_, ?_⟩⟩ <;>
    simp_all [isAllowConnectedAsSource, isAllowConnectedAsTarget]

/-- Witness for the amended C2: on a state whose as-source flag is
already set, the evaluation reads the current `sourceRules` field (here a
freshly inserted failing rule) and indeed fails. -/
theorem claim_C2_amended_witness :
    (isAllowConnectedAsSource getConnectedSourceRulesDefault
        ⟨[ruleFailNo], [], true, false⟩ sampleNode sampleNode none none none).1
      = evalConnectRules sampleNode sampleNode sampleNode none none none [ruleFailNo]
    ∧ (isAllowConnectedAsSource getConnectedSourceRulesDefault
        ⟨[ruleFailNo], [], true, false⟩ sampleNode sampleNode none none none).1.isAllPass
      = false :=
  ⟨((claim_C2_amended getConnectedSourceRulesDefault getConnectedSourceRulesDefault
      ⟨[ruleFailNo], [], true, false⟩ sampleNode sampleNode none none none).2.2.1
      rfl).1, rfl⟩

/-- A move rule answering the boolean `false` for every proposed delta. -/
def ruleBoolFalse : MoveRule ℤ := fun _ _ _ => MoveRuleResult.rbool false

/-- **C4.** `moveTo(x, y, ignoreRules)` evaluates the movement rules once
against the whole combined delta as a single boolean decision: the move
is rejected outright (state unchanged, `false` returned) exactly when the
aggregation vetoes it — some rule returns a falsy boolean or a per-axis
pair with both axes false — and otherwise (per-axis results
AND-accumulating across the remaining rules) the position becomes exactly
`(x, y)`, every label shifts by the full delta, and `true` is returned;
a per-axis result such as `{x: false, y: true}` never produces a partial
move through `moveTo`. -/
theorem claim_C4 {α : Type} [AddCommGroup α] [DecidableEq α]
    (moveRules nodeMoveRules : List (MoveRule α)) (n : NodeState α)
    (x y : α) (isIgnoreRule : Bool) :
    (isAllowMoveNode moveRules nodeMoveRules n (x - n.x) (y - n.y)
        = IsAllowMoveResult.retFalse
      ↔ ∃ r ∈ moveRules ++ nodeMoveRules, vetoes (r n (x - n.x) (y - n.y)) = true)
    ∧ ((∀ r ∈ moveRules ++ nodeMoveRules, vetoes (r n (x - n.x) (y - n.y)) = false) →
        isAllowMoveNode moveRules nodeMoveRules n (x - n.x) (y - n.y)
          = IsAllowMoveResult.retPair
            ((moveRules ++ nodeMoveRules).all fun r => allowX (r n (x - n.x) (y - n.y)))
            ((moveRules ++ nodeMoveRules).all fun r => allowY (r n (x - n.x) (y - n.y))))
    ∧ (isIgnoreRule = false →
        isAllowMoveNode moveRules nodeMoveRules n (x - n.x) (y - n.y)
          = IsAllowMoveResult.retFalse →
        moveTo moveRules nodeMoveRules n x y isIgnoreRule = (n, false))
    ∧ ((isIgnoreRule = true ∨
        isAllowMoveNode moveRules nodeMoveRules n (x - n.x) (y - n.y)
          ≠ IsAllowMoveResult.retFalse) →
        textShapeOk n = true →
        (moveTo moveRules nodeMoveRules n x y isIgnoreRule).1.x = x
        ∧ (moveTo moveRules nodeMoveRules n x y isIgnoreRule).1.y = y
        ∧ textLabels (moveTo moveRules nodeMoveRules n x y isIgnoreRule).1.text
            = (textLabels n.text).map (shiftLabel (x - n.x) (y - n.y))
        ∧ (moveTo moveRules nodeMoveRules n x y isIgnoreRule).2 = true) := by
  refine ⟨?_, ?_, ?_, ?_⟩
  · rw [isAllowMoveNode_spec]
    by_cases hv : (moveRules ++ nodeMoveRules).any
        (fun r => vetoes (r n (x - n.x) (y - n.y))) = true
    · simp only [hv, if_true]
      exact iff_of_true trivial (List.any_eq_true.mp hv)
    · simp only [Bool.not_eq_true] at hv
      simp only [hv, Bool.false_eq_true, if_false]
      constructor
      · intro h; exact absurd h (by simp)
      · intro h
        exact absurd (List.any_eq_true.mpr h) (by simp [hv])
  · intro hall
    have hv : (moveRules ++ nodeMoveRules).any
        (fun r => vetoes (r n (x - n.x) (y - n.y))) = false := by
      simp only [List.any_eq_false]
      intro r hr
      simp [hall r hr]
    rw [isAllowMoveNode_spec]
    simp [hv]
  · intro hig hr
    simp [moveTo, hig, hr]
  · intro hcase hshape
    have hguard : (!isIgnoreRule &&
        decide (isAllowMoveNode moveRules nodeMoveRules n (x - n.x) (y - n.y)
          = IsAllowMoveResult.retFalse)) = false := by
      rcases hcase with h | h
      · simp [h]
      · simp [h]
    refine ⟨?_, ?_, ?_, ?_⟩ <;>
      simp [moveTo, hguard, moveText_spec n (x - n.x) (y - n.y) hshape,
        textLabels_shiftText]

/-- Witness for C4: a boolean-false rule rejects `moveTo(50, 60)` outright
on the sample node, while the rule answering `{x: false, y: true}` (an
object, hence truthy) lets `moveTo` move the node fully to (50, 60) — no
partial move. -/
theorem claim_C4_witness :
    moveTo [ruleBoolFalse] [] sampleNode 50 60 false = (sampleNode, false)
    ∧ ((moveTo [ruleXFalseYTrue] [] sampleNode 50 60 false).1.x = 50
      ∧ (moveTo [ruleXFalseYTrue] [] sampleNode 50 60 false).1.y = 60
      ∧ textLabels (moveTo [ruleXFalseYTrue] [] sampleNode 50 60 false).1.text
          = (textLabels sampleNode.text).map
              (shiftLabel (50 - sampleNode.x) (60 - sampleNode.y))
      ∧ (moveTo [ruleXFalseYTrue] [] sampleNode 50 60 false).2 = true) :=
  ⟨(claim_C4 [ruleBoolFalse] [] sampleNode 50 60 false).2.2.1 rfl (by decide),
   (claim_C4 [ruleXFalseYTrue] [] sampleNode 50 60 false).2.2.2
     (Or.inr (by decide)) (by decide)⟩

/-- `move` never touches the transform descriptor. -/
theorem move_transform {α : Type} [Add α] [Zero α]
    (moveRules nodeMoveRules : List (MoveRule α)) (n : NodeState α)
    (dx dy : α) (ig : Bool) :
    (move moveRules nodeMoveRules n dx dy ig).1.transform = n.transform := by
  simp only [move]
  split_ifs <;> simp [moveText_transform]

/-- `moveTo` never touches the transform descriptor. -/
theorem moveTo_transform {α : Type} [Add α] [Sub α]
    (moveRules nodeMoveRules : List (MoveRule α)) (n : NodeState α)
    (x y : α) (ig : Bool) :
    (moveTo moveRules nodeMoveRules n x y ig).1.transform = n.transform := by
  simp only [moveTo]
  split_ifs <;> simp [moveText_transform]

/-- `getMoveDistance` never touches the transform descriptor. -/
theorem getMoveDistance_transform {α : Type} [Add α] [Zero α] [DecidableEq α]
    (moveRules nodeMoveRules : List (MoveRule α)) (n : NodeState α)
    (dx dy : α) (ig : Bool) :
    (getMoveDistance moveRules nodeMoveRules n dx dy ig).1.transform
      = n.transform := by
  simp only [getMoveDistance]
  split_ifs <;> simp [moveText_transform]

/-- Counterexample to **C5**.  Setting the rotation recomputes the
descriptor, but a subsequent `move` changes the position without
recomputing it: after `move(10, 0)` the stored descriptor still encodes
the old centre (100, 100) and disagrees with the current position. -/
theorem claim_C5_counterexample :
    ((move [] [] (setRotate sampleNode 90) 10 0 true).1.rotate = 90)
    ∧ ((move [] [] (setRotate sampleNode 90) 10 0 true).1.x = 110)
    ∧ ((move [] [] (setRotate sampleNode 90) 10 0 true).1.y = 100)
    ∧ ((move [] [] (setRotate sampleNode 90) 10 0 true).1.transform
        = some ⟨100, 100, 90⟩)
    ∧ ((move [] [] (setRotate sampleNode 90) 10 0 true).1.transform
        ≠ some ⟨(move [] [] (setRotate sampleNode 90) 10 0 true).1.x,
                (move [] [] (setRotate sampleNode 90) 10 0 true).1.y,
                (move [] [] (setRotate sampleNode 90) 10 0 true).1.rotate⟩) := by
  decide

/-- **C5 (amended).** Only the `rotate` setter recomputes the transform
descriptor, and it does so from the node's current `x`, `y` and the new
angle before returning; the position-changing operations (`move`,
`moveTo`, `getMoveDistance`, and `resize`, which delegates to them) leave
the descriptor untouched, so after a position change the descriptor still
encodes the position at the time of the last rotation assignment. -/
theorem claim_C5_amended (n : NodeState ℚ) (v : ℚ)
    (moveRules nodeMoveRules : List (MoveRule ℚ)) (dx dy tx ty w h dX dY : ℚ)
    (ig : Bool) :
    (setRotate n v).transform = some ⟨n.x, n.y, v⟩
    ∧ (setRotate n v).rotate = v
    ∧ (setRotate n v).x = n.x
    ∧ (setRotate n v).y = n.y
    ∧ (move moveRules nodeMoveRules n dx dy ig).1.transform = n.transform
    ∧ (moveTo moveRules nodeMoveRules n tx ty ig).1.transform = n.transform
    ∧ (getMoveDistance moveRules nodeMoveRules n dx dy ig).1.transform = n.transform
    ∧ (resize moveRules nodeMoveRules n w h dX dY).1.transform = n.transform := by
  refine ⟨rfl, rfl, rfl, rfl, move_transform _ _ _ _ _ _,
    moveTo_transform _ _ _ _ _ _, getMoveDistance_transform _ _ _ _ _ _, ?_⟩
  simp [resize, setProperties, move_transform]

/-- First label of the multiple-mode sample node. -/
def c6LabelA : LabelType ℤ := ⟨"a", "n6", "first", "first", 10, 10, false, true, false⟩

/-- Second label of the multiple-mode sample node. -/
def c6LabelB : LabelType ℤ := ⟨"b", "n6", "second", "second", 20, 20, false, true, false⟩

/-- A multiple-label node carrying two labels. -/
def sampleC6 : NodeState ℤ :=
  { id := "n6", type := "rect", x := 0, y := 0, width := 100, height := 80
    rotate := 0, transform := none
    text := NodeText.list [c6LabelA, c6LabelB]
    props := [("labelConfig", PropValue.lconf ⟨true, none, false⟩)]
    anchorsOffset := [], zIndex := 1 }

/-- **C6 (code bug).** The claim (and §4.5/§7 of the spec) says the
multiple-mode index branch of `deleteText` removes the record at any
supplied index.  In the code the branch `if (textInfo.index && isArray())`
is dead: lodash `isArray()` is called with *no argument* and always
returns false (and the truthy test would additionally drop index 0), so
a supplied index — here 1, and also 0 — deletes nothing.  Removal by id
and the single-mode clearing of value/content do behave as claimed. -/
theorem claim_C6_code_bug :
    deleteText sampleC6 (some 1) none = sampleC6
    ∧ deleteText sampleC6 (some 0) none = sampleC6
    ∧ (textLabels sampleC6.text).length = 2
    ∧ deleteText sampleC6 none (some "a")
        = { sampleC6 with text := NodeText.list [c6LabelB] }
    ∧ deleteText sampleC6 none (some "zzz") = sampleC6
    ∧ deleteText sampleNode none (some "t1")
        = { sampleNode with
            text := NodeText.single { sampleLabel with value := "", content := "" } } := by
  decide

/-! ### Lemmas about the property record -/

theorem lookupProp_setKey_self (pre : Props) (k : String) (v : PropValue) :
    lookupProp (setKey pre k v) k = some v := by
  induction pre with
  | nil => simp [setKey, lookupProp]
  | cons kv rest ih =>
    rcases kv with ⟨k1, v1⟩
    by_cases h : k1 = k
    · simp [setKey, h, lookupProp]
    · simp [setKey, h, lookupProp, ih]

theorem lookupProp_setKey_ne (pre : Props) (k k' : String) (v : PropValue)
    (h : k' ≠ k) : lookupProp (setKey pre k v) k' = lookupProp pre k' := by
  induction pre with
  | nil => simp [setKey, lookupProp, Ne.symm h]
  | cons kv rest ih =>
    rcases kv with ⟨k1, v1⟩
    by_cases hk : k1 = k
    · subst hk
      simp [setKey, lookupProp, Ne.symm h]
    · simp only [setKey, hk, if_false, lookupProp]
      by_cases hk' : k1 = k'
      · simp [hk']
      · simp [hk', ih]

theorem lookupProp_mergeProps_not_mem (ps : Props) (pre : Props) (k : String)
    (h : k ∉ ps.map Prod.fst) :
    lookupProp (mergeProps pre ps) k = lookupProp pre k := by
  induction ps generalizing pre with
  | nil => rfl
  | cons kv rest ih =>
    rcases kv with ⟨k1, v1⟩
    simp only [List.map_cons, List.mem_cons] at h
    push_neg at h
    rw [show mergeProps pre ((k1, v1) :: rest) = mergeProps (setKey pre k1 v1) rest
      from rfl]
    rw [ih _ h.2, lookupProp_setKey_ne _ _ _ _ h.1]

theorem lookupProp_mergeProps_mem (ps : Props) (pre : Props) (k : String)
    (v : PropValue) (hmem : (k, v) ∈ ps) (hnd : (ps.map Prod.fst).Nodup) :
    lookupProp (mergeProps pre ps) k = some v := by
  induction ps generalizing pre with
  | nil => cases hmem
  | cons kv rest ih =>
    rcases kv with ⟨k1, v1⟩
    simp only [List.map_cons, List.nodup_cons] at hnd
    rcases List.mem_cons.mp hmem with heq | hmem'
    · cases heq
      rw [show mergeProps pre ((k, v) :: rest) = mergeProps (setKey pre k v) rest
        from rfl]
      rw [lookupProp_mergeProps_not_mem _ _ _ hnd.1, lookupProp_setKey_self]
    · rw [show mergeProps pre ((k1, v1) :: rest) = mergeProps (setKey pre k1 v1) rest
        from rfl]
      exact ih _ hmem' hnd.2

/-- `formatData` is the identity on the modelled values, so the mapped
argument record of `setProperties` is the record itself. -/
theorem map_formatData (ps : Props) :
    ps.map (fun kv => (kv.1, formatData kv.2)) = ps := by
  simp [formatData]

/-- A node with the key "color" already set to the string "red". -/
def sampleC7 : NodeState ℤ :=
  { id := "n7", type := "rect", x := 0, y := 0, width := 100, height := 80
    rotate := 0, transform := none
    text := NodeText.single ⟨"t7", "n7", "", "", 0, 0, false, true, false⟩
    props := [("labelConfig", PropValue.lconf ⟨false, some 1, false⟩),
              ("color", PropValue.str "red")]
    anchorsOffset := [], zIndex := 1 }

/-- Counterexample to **C7**.  Re-supplying the key "color" with its
current value "red" through `setProperty` still emits a notification
listing `["color"]`; the claim says a key re-supplied with an identical
value is excluded, i.e. that no key would be emitted here. -/
theorem claim_C7_counterexample :
    lookupProp sampleC7.props "color" = some (PropValue.str "red")
    ∧ (setProperty sampleC7 "color" (PropValue.str "red")).2.keys = ["color"]
    ∧ (setProperty sampleC7 "color" (PropValue.str "red")).2.keys ≠ [] := by
  decide

/-- Strict equality between a cloned value and itself holds exactly for
primitives. -/
theorem jsStrictEqCloned_refl_primitive (v : PropValue) (h : isPrimitive v = true) :
    jsStrictEqCloned v v = true := by
  cases v <;> simp_all [isPrimitive, jsStrictEqCloned]

/-- A supplied object value is never strictly equal to a stored clone. -/
theorem jsStrictEqCloned_lconf (w : PropValue) (c : LabelConfig) :
    jsStrictEqCloned w (PropValue.lconf c) = false := by
  cases w <;> rfl

/-- In a record with distinct keys, a key determines its value. -/
theorem props_nodup_unique (ps : Props) (hnd : (ps.map Prod.fst).Nodup)
    {k : String} {v w : PropValue} (h1 : (k, v) ∈ ps) (h2 : (k, w) ∈ ps) :
    v = w := by
  induction ps with
  | nil => cases h1
  | cons kv rest ih =>
    simp only [List.map_cons, List.nodup_cons] at hnd
    rcases List.mem_cons.mp h1 with e1 | m1
    · rcases List.mem_cons.mp h2 with e2 | m2
      · simpa using e1.trans e2.symm
      · rw [← e1] at hnd
        exact absurd (List.mem_map_of_mem Prod.fst m2) hnd.1
    · rcases List.mem_cons.mp h2 with e2 | m2
      · rw [← e2] at hnd
        exact absurd (List.mem_map_of_mem Prod.fst m1) hnd.1
      · exact ih hnd.2 m1 m2

/-- **C7 (amended).** Both mutators build a brand-new merged property
record, and `setProperty` always emits `[key]` — even when the supplied
value equals the current one.  `setProperties` compares each supplied
value against a deep clone of the stored one with JS strict equality:
a key re-supplied with its identical primitive value is excluded from
the notification; a key that is newly present, or whose stored clone is
not strictly equal to the supplied value, is reported; and an
object-valued key (the label-configuration record) is always reported,
the clone never being reference-equal.  Consequently `setProperties` is
idempotent on records of primitive values — an immediate second
application of such a record yields an empty changed-keys list — but not
on object values. -/
theorem claim_C7_amended {α : Type} (n : NodeState α) (key : String) (v : PropValue)
    (ps : Props) (hnd : (ps.map Prod.fst).Nodup) :
    (setProperty n key v).2.keys = [key]
    ∧ (setProperty n key v).1.props = setKey n.props key v
    ∧ (setProperties n ps).1.props = mergeProps n.props ps
    ∧ (∀ k w, (k, w) ∈ ps → isPrimitive w = true →
        lookupProp n.props k = some w →
        k ∉ (setProperties n ps).2.keys)
    ∧ (∀ k w, (k, w) ∈ ps →
        (match lookupProp n.props k with
          | some w0 => jsStrictEqCloned w0 w
          | none => false) = false →
        k ∈ (setProperties n ps).2.keys)
    ∧ (∀ k c, (k, PropValue.lconf c) ∈ ps → k ∈ (setProperties n ps).2.keys)
    ∧ ((∀ kv ∈ ps, isPrimitive kv.2 = true) →
        (setProperties (setProperties n ps).1 ps).2.keys = []) := by
  have hmem_keys : ∀ k w, (k, w) ∈ ps →
      (match lookupProp n.props k with
        | some w0 => jsStrictEqCloned w0 w
        | none => false) = false →
      k ∈ updateKeys n.props ps := by
    intro k w hmem hne
    apply List.mem_map.mpr
    refine ⟨(k, w), List.mem_filter.mpr ⟨hmem, ?_⟩, rfl⟩
    rcases hl : lookupProp n.props k with _ | w0
    · simp [hl]
    · rw [hl] at hne
      simp only at hne
      simp [hl, hne]
  refine ⟨rfl, rfl, by simp [setProperties, map_formatData], ?_, hmem_keys, ?_, ?_⟩
  · intro k w hmem hprim hlook hk
    obtain ⟨kv, hkvf, hfst⟩ := List.mem_map.mp hk
    obtain ⟨hkvps, hpred⟩ := List.mem_filter.mp hkvf
    have hkps : (k, kv.2) ∈ ps := by
      rw [← hfst]
      simpa using hkvps
    have hkv2 : kv.2 = w := props_nodup_unique ps hnd hkps hmem
    rw [hfst, hlook, hkv2] at hpred
    simp [jsStrictEqCloned_refl_primitive w hprim] at hpred
  · intro k c hmem
    apply hmem_keys k (PropValue.lconf c) hmem
    rcases hl : lookupProp n.props k with _ | w0
    · rfl
    · simp [jsStrictEqCloned_lconf]
  · intro hallprim
    simp only [setProperties, updateKeys, map_formatData]
    rw [show (ps.filter fun kv =>
        (match lookupProp (mergeProps n.props ps) kv.1 with
          | some w => !jsStrictEqCloned w kv.2
          | none => true)) = []
      from List.filter_eq_nil_iff.mpr ?_]
    · rfl
    · intro kv hkv
      have hm : (kv.1, kv.2) ∈ ps := by simpa using hkv
      rw [lookupProp_mergeProps_mem ps n.props kv.1 kv.2 hm hnd]
      simp [jsStrictEqCloned_refl_primitive kv.2 (hallprim kv hkv)]

/-- Witness for the amended C7: on the sample node, `setProperty` of the
unchanged "color" emits `["color"]`; `setProperties` of a primitive
record is idempotent (the second application emits nothing); and
re-supplying the stored label configuration as a structurally identical
object still emits "labelConfig", the clone never being strictly
equal. -/
theorem claim_C7_amended_witness :
    (setProperty sampleC7 "color" (PropValue.str "red")).2.keys = ["color"]
    ∧ (setProperties (setProperties sampleC7
        [("color", PropValue.str "blue")]).1
        [("color", PropValue.str "blue")]).2.keys = []
    ∧ "labelConfig" ∈ (setProperties sampleC7
        [("labelConfig", PropValue.lconf ⟨false, some 1, false⟩)]).2.keys
    ∧ (setProperties sampleC7
        [("labelConfig", PropValue.lconf ⟨false, some 1, false⟩)]).2.keys
        = ["labelConfig"]
    ∧ lookupProp sampleC7.props "labelConfig"
        = some (PropValue.lconf ⟨false, some 1, false⟩)
    ∧ (setProperties sampleC7 [("color", PropValue.str "blue")]).2.keys
        = ["color"] :=
  ⟨(claim_C7_amended sampleC7 "color" (PropValue.str "red")
      [("color", PropValue.str "blue")] (by decide)).1,
   (claim_C7_amended sampleC7 "color" (PropValue.str "red")
      [("color", PropValue.str "blue")] (by decide)).2.2.2.2.2.2 (by decide),
   (claim_C7_amended sampleC7 "labelConfig" (PropValue.str "x")
      [("labelConfig", PropValue.lconf ⟨false, some 1, false⟩)] (by decide)).2.2.2.2.2.1
      "labelConfig" ⟨false, some 1, false⟩ (by decide),
   by decide,
   by decide,
   by decide⟩

/-- **C8.** In multiple-label mode with a defined `max`, `addText` is a
no-op once the label count has reached `max`, and a call never grows the
count past `max`; in single-label mode `addText` never creates a second
record — it only re-creates the existing single record with
`isFocus: true`. -/
theorem claim_C8 {α : Type} [Sub α] [OfNat α 10] (newId : String) (n : NodeState α)
    (px py : α) :
    ((getLabelConfig n).multiple = true →
      ∀ m, (getLabelConfig n).max = some m →
      ∀ l, n.text = NodeText.list l →
      (l.length ≥ m → addText newId n px py = n)
      ∧ (l.length ≤ m →
          (textLabels (addText newId n px py).text).length ≤ m))
    ∧ ((getLabelConfig n).multiple = false →
      ∀ t, n.text = NodeText.single t →
      addText newId n px py
        = { n with text := NodeText.single { t with isFocus := true } }) := by
  constructor
  · intro hmul m hmax l hl
    constructor
    · intro hge
      simp [addText, hmul, hmax, hl, hge]
    · intro hle
      by_cases hge : l.length ≥ m
      · simp [addText, hmul, hmax, hl, hge, textLabels]
        exact hle
      · have hlt : l.length < m := Nat.lt_of_not_le hge
        simp [addText, hmul, hmax, hl, hge, textLabels]
        omega
  · intro hmul t ht
    simp [addText, hmul, ht]

/-- A multiple-label node with `max = 2` and no labels yet. -/
def sampleC8 : NodeState ℤ :=
  { id := "n8", type := "rect", x := 0, y := 0, width := 100, height := 80
    rotate := 0, transform := none
    text := NodeText.list []
    props := [("labelConfig", PropValue.lconf ⟨true, some 2, false⟩)]
    anchorsOffset := [], zIndex := 1 }

/-- Witness for C8, realizing the spec scenario: with `max = 2`, three
`addText` calls leave exactly 2 labels (the third is a no-op), and on
the single-mode sample node `addText` keeps the one existing record,
merely focused. -/
theorem claim_C8_witness :
    (textLabels (addText "i3" (addText "i2" (addText "i1" sampleC8 1 1) 2 2) 3 3).text).length
      = 2
    ∧ addText "i3" (addText "i2" (addText "i1" sampleC8 1 1) 2 2) 3 3
        = addText "i2" (addText "i1" sampleC8 1 1) 2 2
    ∧ addText "s1" sampleNode 0 0
        = { sampleNode with
            text := NodeText.single { sampleLabel with isFocus := true } } :=
  ⟨by decide,
   ((claim_C8 "i3" (addText "i2" (addText "i1" sampleC8 1 1) 2 2) 3 3).1
      (by decide) 2 (by decide)
      (textLabels (addText "i2" (addText "i1" sampleC8 1 1) 2 2).text)
      (by decide)).1 (by decide),
   (claim_C8 "s1" sampleNode 0 0).2 (by decide) sampleLabel (by decide)⟩

/-- **C10 (implicit).** In the single-record representation, `getData`
omits the `text` field entirely when the label's value is the empty
string and includes the `{x, y, value, content}` projection exactly when
the value is non-empty; in the list representation the `text` field is
always present as the entry-wise projection, with no empty-value
filtering. -/
theorem claim_C10 {α : Type} [Zero α] [DecidableEq α] (overlapIncrease : Bool)
    (n : NodeState α) :
    (∀ t, n.text = NodeText.single t → t.value = "" →
      (getData overlapIncrease n).text = none)
    ∧ (∀ t, n.text = NodeText.single t → t.value ≠ "" →
      (getData overlapIncrease n).text
        = some (NodeDataText.single ⟨t.x, t.y, t.value, t.content⟩))
    ∧ (∀ l, n.text = NodeText.list l →
      (getData overlapIncrease n).text
        = some (NodeDataText.list (l.map fun t => ⟨t.x, t.y, t.value, t.content⟩))) := by
  refine ⟨?_, ?_, ?_⟩
  · intro t ht hv
    simp [getData, ht, hv]
  · intro t ht hv
    simp [getData, ht, hv]
  · intro l hl
    simp [getData, hl]

/-- Witness for C10: the empty-valued single-mode node has no `text` key
in its snapshot, the sample node (value "hi") has the single projection,
and the two-label node has the full list projection. -/
theorem claim_C10_witness :
    (getData false sampleC7).text = none
    ∧ (getData false sampleNode).text
        = some (NodeDataText.single ⟨90, 95, "hi", "hi"⟩)
    ∧ (getData false sampleC6).text
        = some (NodeDataText.list
            [⟨10, 10, "first", "first"⟩, ⟨20, 20, "second", "second"⟩]) :=
  ⟨(claim_C10 false sampleC7).1 ⟨"t7", "n7", "", "", 0, 0, false, true, false⟩
      (by decide) (by decide),
   (claim_C10 false sampleNode).2.1 sampleLabel (by decide) (by decide),
   (claim_C10 false sampleC6).2.2 [c6LabelA, c6LabelB] (by decide)⟩

/-- **C9.** With an explicit non-empty offset list, the `i`-th resolved
anchor's unrotated position is the node centre plus the entry's offset —
for legacy tuple entries and record entries alike — with the id
`{nodeId}_{i}` assigned when the entry supplies none (a truthy supplied
id is kept); the `anchors` getter then returns exactly these anchors with
each position rotated about the node centre by the current rotation. -/
theorem claim_C9 (n : NodeState ℝ) (h : 0 < n.anchorsOffset.length) (i : ℕ) :
    (getAnchorsByOffset n).get? i
      = (n.anchorsOffset.get? i).map (fun item =>
          match item with
          | AnchorsOffsetItem.tuple a b =>
              ⟨n.id ++ "_" ++ toString i, n.x + a, n.y + b⟩
          | AnchorsOffsetItem.record idf ox oy =>
              ⟨(match idf with
                | some s => if s = "" then n.id ++ "_" ++ toString i else s
                | none => n.id ++ "_" ++ toString i), n.x + ox, n.y + oy⟩)
    ∧ anchors n = (getAnchorsByOffset n).map (fun a =>
        { a with
          x := (rotatePointAboutCenter n.x n.y n.rotate a.x a.y).1
          y := (rotatePointAboutCenter n.x n.y n.rotate a.x a.y).2 }) := by
  constructor
  · rw [show getAnchorsByOffset n = n.anchorsOffset.enum.map _ from if_pos h]
    rw [List.get?_map, List.get?_enum]
    cases hg : n.anchorsOffset.get? i with
    | none => rfl
    | some item => cases item <;> rfl
  · rfl

/-- The §8 scenario node: centred at (100, 100), 100×80, rotated 90°,
with one explicit anchor offset (50, 0), i.e. an anchor at (150, 100)
before rotation. -/
noncomputable def c9Node : NodeState ℝ :=
  { id := "nodeA", type := "rect", x := 100, y := 100, width := 100, height := 80
    rotate := 90, transform := none
    text := NodeText.list []
    props := [("labelConfig", PropValue.lconf ⟨true, none, false⟩)]
    anchorsOffset := [AnchorsOffsetItem.tuple 50 0], zIndex := 1 }

/-- Witness for C9, realizing the spec scenario: the unrotated anchor of
`c9Node` is `("nodeA_0", 150, 100)` and the rotated anchor list is
`[("nodeA_0", 100, 150)]`. -/
theorem claim_C9_witness :
    (0 < c9Node.anchorsOffset.length)
    ∧ (getAnchorsByOffset c9Node).get? 0
        = some ⟨"nodeA_0", 150, 100⟩
    ∧ anchors c9Node = [⟨"nodeA_0", 100, 150⟩] := by
  have h : 0 < c9Node.anchorsOffset.length := by simp [c9Node]
  have hid : "nodeA" ++ "_" ++ toString (0 : ℕ) = "nodeA_0" := rfl
  have hid2 : "nodeA_" ++ toString (0 : ℕ) = "nodeA_0" := rfl
  have hdeg : (90 : ℝ) * Real.pi / 180 = Real.pi / 2 := by ring
  refine ⟨h, ?_, ?_⟩
  · rw [(claim_C9 c9Node h 0).1]
    simp [c9Node, hid, hid2]
    norm_num
  · rw [(claim_C9 c9Node h 0).2]
    rw [show getAnchorsByOffset c9Node
        = [⟨"nodeA_0", 150, 100⟩] from ?_]
    · simp only [List.map_cons, List.map_nil, rotatePointAboutCenter, c9Node, hdeg,
        Real.cos_pi_div_two, Real.sin_pi_div_two]
      norm_num
    · rw [show getAnchorsByOffset c9Node
          = c9Node.anchorsOffset.enum.map _ from if_pos h]
      simp [c9Node, List.enum, hid, hid2]
      norm_num

end LogicFlow
